import Mathlib

/-!
Verification of the training/evaluation/selection engine of the
AI-Stock-Price-Predictor repository (source: `src/optimizers/gru.py`).

The script is embedded shallowly:

* `create_sequences` (gru.py lines 126-136) is translated directly on lists.
* `normalize_data` (lines 121-124) wraps scikit-learn's `MinMaxScaler` with
  `feature_range=(-1, 1)`; the scaler's affine fit/transform/inverse is
  embedded over `ℚ` (`data_min_`/`data_max_` per column, the zero-range guard
  of `_handle_zeros_in_scale`, `scale_ = 2 / range`, `min_ = -1 - data_min *
  scale_`).
* `train_model` (lines 42-62) runs `for t in range(num_epochs)` iterations of
  one optimizer step; the step (zero_grad/forward/loss/backward/step) is kept
  abstract as a function on the optimizer-and-model state, and Python's
  `range` of a non-positive bound is the empty range.
* The walk-forward date state (`end_date`, `next_day_datetime`, lines
  148-152 and 231-233) is a record of integers counting days.
* The best-candidate update (lines 223-239) is embedded as a state machine
  over a heap of model parameter vectors, so that Python's reference
  assignment (`best_model = model`) and `copy.deepcopy(model)` are
  distinguishable and the effect of in-place mutation of the live model is
  expressible.
* `sklearn.model_selection.ParameterGrid` (line 171) enumerates
  `sorted(p.items())` and `itertools.product(*values)`; both are embedded on
  association lists.
-/

/-! ## SequenceWindower: `create_sequences` (gru.py lines 126-136) -/

/-- Embedding of `create_sequences(data, seq_length)`:
`for i in range(len(data) - seq_length - 1): xs.append(data[i:i+seq_length]);
ys.append(data[i+seq_length])`.  Python's `range` of a non-positive bound is
empty, which coincides with truncated `Nat` subtraction. -/
def create_sequences {α : Type} [Inhabited α] (data : List α) (seq_length : ℕ) :
    List (List α) × List α :=
  let idxs := List.range (data.length - seq_length - 1)
  (idxs.map (fun i => (data.drop i).take seq_length),
   idxs.map (fun i => data.getD (i + seq_length) default))

/-! ## Normalizer: `normalize_data` (gru.py lines 121-124), i.e.
`MinMaxScaler(feature_range=(-1, 1))` -/

/-- Per-column fitted state of `MinMaxScaler`: `data_min_[j]` and
`data_max_[j]`. -/
structure FittedCol where
  data_min : ℚ
  data_max : ℚ
  deriving Repr, DecidableEq

/-- `_handle_zeros_in_scale`: a zero range is replaced by 1 before dividing. -/
def data_range (c : FittedCol) : ℚ :=
  if c.data_max - c.data_min = 0 then 1 else c.data_max - c.data_min

/-- `scale_ = (feature_range[1] - feature_range[0]) / data_range` with
`feature_range = (-1, 1)`. -/
def scaleCol (c : FittedCol) : ℚ := 2 / data_range c

/-- `min_ = feature_range[0] - data_min_ * scale_`. -/
def minCol (c : FittedCol) : ℚ := -1 - c.data_min * scaleCol c

/-- `transform`: `X * scale_ + min_`, per entry. -/
def transformVal (c : FittedCol) (x : ℚ) : ℚ := x * scaleCol c + minCol c

/-- `inverse_transform`: `(X - min_) / scale_`, per entry. -/
def inverseVal (c : FittedCol) (x : ℚ) : ℚ := (x - minCol c) / scaleCol c

/-- Column `j` of a row-major matrix (`X[:, j]`). -/
def colValues (m : List (List ℚ)) (j : ℕ) : List ℚ :=
  m.map (fun r => r.getD j 0)

/-- Minimum of a nonempty list (`X.min(axis=0)` per column); 0 on the empty
list, which the fit never sees for a nonempty matrix. -/
def listMin : List ℚ → ℚ
  | [] => 0
  | x :: xs => xs.foldl min x

/-- Maximum of a nonempty list (`X.max(axis=0)` per column). -/
def listMax : List ℚ → ℚ
  | [] => 0
  | x :: xs => xs.foldl max x

/-- The `fit` step: one `FittedCol` per column of the matrix. -/
def fitScalers (m : List (List ℚ)) : List FittedCol :=
  (List.range (m.headD []).length).map
    (fun j => ⟨listMin (colValues m j), listMax (colValues m j)⟩)

/-- Row-wise `transform` against a list of per-column states. -/
def transformRow (s : List FittedCol) (r : List ℚ) : List ℚ :=
  List.zipWith transformVal s r

/-- Row-wise `inverse_transform` against a list of per-column states. -/
def inverseRow (s : List FittedCol) (r : List ℚ) : List ℚ :=
  List.zipWith inverseVal s r

/-- `normalize_data(data)`: `scaler.fit_transform(data)` returning the
normalized matrix and the fitted scaler. -/
def normalize_data (m : List (List ℚ)) : List (List ℚ) × List FittedCol :=
  let s := fitScalers m
  (m.map (transformRow s), s)

/-- `scaler.inverse_transform` on a matrix. -/
def inverse_transform (s : List FittedCol) (m : List (List ℚ)) :
    List (List ℚ) :=
  m.map (inverseRow s)

/-! ## Trainer: `train_model` (gru.py lines 42-62)

One epoch of the loop body (`optimizer.zero_grad(); outputs = model(X);
loss = criterion(outputs, y); loss.backward(); optimizer.step()`) is kept
abstract as a function `epoch_step` on the optimizer-and-model state `α`;
the loop `for t in range(num_epochs)` iterates it, and Python's `range` of
a non-positive bound is empty. -/

/-- Embedding of `train_model`: iterate the epoch step `num_epochs` times
(zero times when `num_epochs <= 0`, as `range` is then empty). -/
def train_model {α : Type} (epoch_step : α → α) (model : α) (num_epochs : ℤ) :
    α :=
  epoch_step^[num_epochs.toNat] model

/-! ## Walk-forward date state (gru.py lines 148-152 and 231-233) -/

/-- The three date variables of the script, counted in days:
`start_date`, `end_date`, `next_day_datetime`. -/
structure WalkState where
  start_date : ℤ
  end_date : ℤ
  next_day : ℤ
  deriving Repr, DecidableEq

/-- One cycle's date advancement (lines 231-232):
`end_date = next_day_datetime; next_day_datetime += timedelta(days=1)`. -/
def cycleStep (s : WalkState) : WalkState :=
  ⟨s.start_date, s.next_day, s.next_day + 1⟩

/-- Initial date state (lines 148-151): `next_day_datetime = end_date +
timedelta(days=1)`. -/
def initWalk (start D : ℤ) : WalkState := ⟨start, D, D + 1⟩

/-! ## BestCandidateTracker (gru.py lines 154-168 and 223-239)

Python reference semantics are made explicit with a heap: a model lives at
an address (an index into `heap`), `best_model = model` stores the live
address, and `best_model = copy.deepcopy(model)` appends a copy of the live
model's current parameters at a fresh address.  In-place mutation of the
live model (what further optimizer steps would do) updates the heap cell at
its address. -/

/-- The four `best_*` globals plus the model heap.  `best_loss = none`
models the initial `float('inf')` (line 165). -/
structure TrackerState (α : Type) (π : Type) where
  heap : List α
  best_model : Option ℕ
  best_predictions : Option (List ℚ)
  best_loss : Option ℚ
  best_params : Option π
  deriving Repr, DecidableEq

/-- Initial tracker state (lines 154-168): everything unset, `best_loss =
inf`; `heap` holds the models the run will offer. -/
def initTracker {α π : Type} (heap : List α) : TrackerState α π :=
  ⟨heap, none, none, none, none⟩

/-- `np.all(predictions > best_predictions)` on equal-shape vectors:
component-wise strict greater-than. -/
def npAllGt (p q : List ℚ) : Bool :=
  (List.zipWith (fun a b => decide (b < a)) p q).all id

/-- The first branch condition (line 224):
`best_predictions is None or np.all(predictions > best_predictions)`,
with Python's short-circuit `or`. -/
def bestPredCond {α π : Type} (s : TrackerState α π) (preds : List ℚ) :
    Bool :=
  match s.best_predictions with
  | none => true
  | some q => npAllGt preds q

/-- The second branch condition (line 236): `loss.item() < best_loss`,
where `best_loss` may still be `float('inf')`. -/
def lossLtBest (l : ℚ) : Option ℚ → Bool
  | none => true
  | some b => decide (l < b)

/-- One offer of a candidate to the tracker: the loop tail of lines
223-239.  First branch (lines 224-229): store the live model's address
(`best_model = model` is reference assignment), the denormalized
predictions, the loss and the parameters.  Second branch (lines 236-239):
store the loss and the parameters, and append a deep copy of the live
model at a fresh address (`copy.deepcopy(model)`).  The date advancement
between the two branches does not touch the tracker. -/
def offer {α π : Type} [Inhabited α] (s : TrackerState α π) (liveAddr : ℕ)
    (preds : List ℚ) (l : ℚ) (hp : π) : TrackerState α π :=
  let s1 :=
    if bestPredCond s preds then
      { s with best_model := some liveAddr,
               best_predictions := some preds,
               best_loss := some l,
               best_params := some hp }
    else s
  if lossLtBest l s1.best_loss then
    { s1 with best_loss := some l,
              best_params := some hp,
              heap := s1.heap ++ [s1.heap.getD liveAddr default],
              best_model := some s1.heap.length }
  else s1

/-- In-place mutation of the live model at address `addr` (what continued
training of the live model object does in Python). -/
def mutateModel {α π : Type} [Inhabited α] (s : TrackerState α π)
    (addr : ℕ) (f : α → α) : TrackerState α π :=
  { s with heap := s.heap.set addr (f (s.heap.getD addr default)) }

/-- The parameters the stored best model currently has, read through its
address. -/
def bestModelParams {α π : Type} [Inhabited α] (s : TrackerState α π) :
    Option α :=
  s.best_model.map (fun i => s.heap.getD i default)

/-! ## GridSearchOrchestrator: `ParameterGrid` (gru.py lines 157-180)

`sklearn.model_selection.ParameterGrid.__iter__` does
`items = sorted(p.items())` followed by `itertools.product(*values)` over
the sorted values, yielding `dict(zip(keys, v))`; the product varies the
last (alphabetically greatest) key fastest.  A grid is an association list
in declared (insertion) order; an enumerated combination is an association
list in sorted-key order. -/

/-- `itertools.product(*values)`: the first list is the most significant
(outermost loop), the last varies fastest. -/
def cartProd : List (List ℚ) → List (List ℚ)
  | [] => [[]]
  | vs :: rest => vs.flatMap (fun v => (cartProd rest).map (fun t => v :: t))

/-- Python's `<=` on strings: lexicographic comparison of the code-point
sequences. -/
def charListLe : List Char → List Char → Bool
  | [], _ => true
  | _ :: _, [] => false
  | a :: as, b :: bs =>
    if a.val < b.val then true
    else if b.val < a.val then false
    else charListLe as bs

/-- String comparison on the underlying character lists. -/
def keyLe (a b : String) : Bool := charListLe a.data b.data

/-- `sorted(p.items())`: Python sorts the key/value pairs by key (keys of a
dict are distinct, so the key decides); `sorted` is stable, as is
insertion sort. -/
def sortItems (g : List (String × List ℚ)) : List (String × List ℚ) :=
  List.insertionSort (fun a b => keyLe a.1 b.1 = true) g

/-- Embedding of `ParameterGrid(param_grid)` iteration: sort the items by
key, take the Cartesian product of the value lists (last key fastest), and
zip each value tuple back with the sorted keys. -/
def parameter_grid (g : List (String × List ℚ)) :
    List (List (String × ℚ)) :=
  let items := sortItems g
  (cartProd (items.map Prod.snd)).map
    (fun vs => (items.map Prod.fst).zip vs)

/-- Modelled from the spec: the enumeration order the spec asserts —
"lexicographic over declared grid keys" — i.e. the same product/zip
construction but over the grid's declared key order, first declared key
most significant.  Compared against `parameter_grid` (from the source) for
the refinement question about enumeration order. -/
def parameter_grid_declared_order (g : List (String × List ℚ)) :
    List (List (String × ℚ)) :=
  (cartProd (g.map Prod.snd)).map (fun vs => (g.map Prod.fst).zip vs)

/-- The orchestrator's per-run mutable state: the walk-forward date
variables (process-wide, shared by all grid combinations) and the count of
walk-forward invocations performed so far. -/
structure SearchState where
  walk : WalkState
  invocations : ℕ
  deriving Repr, DecidableEq

/-- One grid combination's walk-forward run (lines 180-233, date state
only): `num_cycles` cycles of date advancement, counted as one
walk-forward invocation. -/
def run_walk_forward (num_cycles : ℕ) (s : SearchState) : SearchState :=
  ⟨cycleStep^[num_cycles] s.walk, s.invocations + 1⟩

/-- The grid-search driver (line 171): fold the walk-forward runs over the
`ParameterGrid` enumeration, threading the single shared state — the date
variables are never reset between combinations. -/
def grid_search (g : List (String × List ℚ)) (num_cycles : ℕ)
    (s0 : SearchState) : SearchState :=
  (parameter_grid g).foldl (fun s _ => run_walk_forward num_cycles s) s0

/-! ## Helper lemmas -/

theorem data_range_ne_zero (c : FittedCol) : data_range c ≠ 0 := by
  unfold data_range
  split
  · exact one_ne_zero
  · assumption

theorem scaleCol_ne_zero (c : FittedCol) : scaleCol c ≠ 0 := by
  unfold scaleCol
  exact div_ne_zero two_ne_zero (data_range_ne_zero c)

theorem inverseVal_transformVal (c : FittedCol) (x : ℚ) :
    inverseVal c (transformVal c x) = x := by
  unfold inverseVal transformVal
  rw [add_sub_cancel_right]
  exact mul_div_cancel_right₀ x (scaleCol_ne_zero c)

theorem inverseRow_transformRow (s : List FittedCol) (r : List ℚ)
    (h : r.length ≤ s.length) : inverseRow s (transformRow s r) = r := by
  induction s generalizing r with
  | nil =>
    have : r = [] := List.length_eq_zero.mp (Nat.le_zero.mp h)
    simp [this, inverseRow, transformRow]
  | cons c s ih =>
    cases r with
    | nil => simp [inverseRow, transformRow]
    | cons x r =>
      simp only [inverseRow, transformRow, List.zipWith_cons_cons] at *
      have hr : r.length ≤ s.length := Nat.succ_le_succ_iff.mp h
      rw [inverseVal_transformVal]
      exact congrArg (x :: ·) (ih r hr)

theorem length_fitScalers (m : List (List ℚ)) :
    (fitScalers m).length = (m.headD []).length := by
  simp [fitScalers]

theorem getD_append_length {α : Type} (xs : List α) (x d : α) :
    (xs ++ [x]).getD xs.length d = x := by
  rw [List.getD_eq_getElem _ _ (by simp)]
  simp

theorem getD_set_self {α : Type} (xs : List α) (i : ℕ) (v d : α)
    (h : i < xs.length) : (xs.set i v).getD i d = v := by
  rw [List.getD_eq_getElem _ _ (by simpa using h)]
  exact List.getElem_set_self _

/-! ## Claim theorems -/

/-- **C2.** For every feature matrix with `R` rows and every window length
`L` with `L < R - 1`, `create_sequences` produces exactly `R - L - 1`
sequences; the `i`-th produced window consists of the `L` consecutive rows
starting at row `i`, and its target is the row immediately following that
window (row `i + L`). -/
theorem create_sequences_count_and_slices {α : Type} [Inhabited α]
    (data : List α) (L : ℕ) (h : L < data.length - 1) :
    (create_sequences data L).1.length = data.length - L - 1 ∧
    (create_sequences data L).2.length = data.length - L - 1 ∧
    (∀ i, i < data.length - L - 1 →
      ((create_sequences data L).1.getD i []).length = L ∧
      (∀ j, j < L →
        ((create_sequences data L).1.getD i []).getD j default =
          data.getD (i + j) default) ∧
      (create_sequences data L).2.getD i default =
        data.getD (i + L) default) := by
  refine ⟨by simp [create_sequences], by simp [create_sequences], ?_⟩
  intro i hi
  have hwin : (create_sequences data L).1.getD i [] =
      (data.drop i).take L := by
    rw [List.getD_eq_getElem _ _ (by simpa [create_sequences] using hi)]
    simp [create_sequences]
  have hlen : ((data.drop i).take L).length = L := by
    simp only [List.length_take, List.length_drop]
    omega
  refine ⟨by rw [hwin]; exact hlen, ?_, ?_⟩
  · intro j hj
    rw [hwin]
    have hj' : j < ((data.drop i).take L).length := by rw [hlen]; exact hj
    rw [List.getD_eq_getElem _ _ hj']
    rw [List.getElem_take]
    rw [List.getElem_drop data]
    rw [List.getD_eq_getElem _ _ (by omega)]
  · rw [List.getD_eq_getElem _ _ (by simpa [create_sequences] using hi)]
    simp [create_sequences]

/-- Witness for C2 at the concrete 3-row matrix `[0, 1, 2]` with window
length 1. -/
theorem create_sequences_count_and_slices_witness :
    ((1 : ℕ) < ([0, 1, 2] : List ℚ).length - 1) ∧
    ((create_sequences ([0, 1, 2] : List ℚ) 1).1.length =
        ([0, 1, 2] : List ℚ).length - 1 - 1 ∧
      (create_sequences ([0, 1, 2] : List ℚ) 1).2.length =
        ([0, 1, 2] : List ℚ).length - 1 - 1 ∧
      (∀ i, i < ([0, 1, 2] : List ℚ).length - 1 - 1 →
        ((create_sequences ([0, 1, 2] : List ℚ) 1).1.getD i []).length = 1 ∧
        (∀ j, j < 1 →
          ((create_sequences ([0, 1, 2] : List ℚ) 1).1.getD i []).getD j
              default =
            ([0, 1, 2] : List ℚ).getD (i + j) default) ∧
        (create_sequences ([0, 1, 2] : List ℚ) 1).2.getD i default =
          ([0, 1, 2] : List ℚ).getD (i + 1) default)) :=
  ⟨by decide, create_sequences_count_and_slices ([0, 1, 2] : List ℚ) 1
    (by decide)⟩

/-- **C3 counterexample.** The claim says the windowing operation fails with
`InsufficientDataError` when `rows <= window_length + 1`, "rather than
returning an empty or partial result".  On a 3-row matrix with window
length 2 (so `rows = window_length + 1`), `create_sequences` has no failure
path and returns exactly the empty result `([], [])`. -/
theorem create_sequences_insufficient_returns_empty :
    create_sequences ([[0], [1], [2]] : List (List ℚ)) 2 = ([], []) := rfl

/-- **C3 amended.** For every feature matrix with `rows <= window_length +
1`, `create_sequences` returns the empty result (zero windows and zero
targets) instead of raising: `for i in range(len(data) - seq_length - 1)`
is an empty loop there.  (Downstream, the empty arrays make the script fail
later with an index error when reading `X.shape[2]`, not with an
`InsufficientDataError` from the windowing step.) -/
theorem create_sequences_insufficient_empty {α : Type} [Inhabited α]
    (data : List α) (L : ℕ) (h : data.length ≤ L + 1) :
    create_sequences data L = ([], []) := by
  have h0 : data.length - L - 1 = 0 := by omega
  simp [create_sequences, h0]

/-- Witness for the amended C3 at the concrete 2-row matrix `[5, 7]` with
window length 2. -/
theorem create_sequences_insufficient_empty_witness :
    (([5, 7] : List ℚ).length ≤ 2 + 1) ∧
    create_sequences ([5, 7] : List ℚ) 2 = ([], []) :=
  ⟨by decide, create_sequences_insufficient_empty ([5, 7] : List ℚ) 2
    (by decide)⟩

/-- **C5.** `train_model` with `num_epochs <= 0` performs zero training
steps: the epoch loop body never runs, and the model state is returned
unchanged from its initial value, without any error path. -/
theorem train_model_zero_epochs {α : Type} (epoch_step : α → α) (model : α)
    (num_epochs : ℤ) (h : num_epochs ≤ 0) :
    train_model epoch_step model num_epochs = model := by
  unfold train_model
  rw [Int.toNat_of_nonpos h]
  rfl

/-- Witness for C5 at a concrete nontrivial epoch step and `num_epochs =
0`. -/
theorem train_model_zero_epochs_witness :
    ((0 : ℤ) ≤ 0) ∧ train_model (fun x : ℚ => x + 1) 5 0 = 5 :=
  ⟨by decide, train_model_zero_epochs (fun x : ℚ => x + 1) 5 0 (by decide)⟩

/-- **C4.** Applying the scaler's inverse transform to the result of
`fit_transform` reconstructs the matrix (exactly, over `ℚ`) for every
rectangular matrix — in particular for every non-degenerate one (no
constant column); the scalar round-trip `denormalize(normalize(x)) = x`
holds for every value `x`, in range or not; and out-of-range values are
handled by the same total linear (affine) map — linear extrapolation, not
an error. -/
theorem normalize_data_roundtrip (m : List (List ℚ))
    (hrect : ∀ r ∈ m, r.length = (m.headD []).length)
    (hnondeg : ∀ j < (m.headD []).length,
      listMin (colValues m j) < listMax (colValues m j)) :
    inverse_transform (normalize_data m).2 (normalize_data m).1 = m ∧
    (∀ (c : FittedCol) (x : ℚ), inverseVal c (transformVal c x) = x) ∧
    (∀ c : FittedCol, c.data_min < c.data_max → ∀ y : ℚ,
      inverseVal c y = c.data_min + (y + 1) * (c.data_max - c.data_min) / 2)
    := by
  refine ⟨?_, fun c x => inverseVal_transformVal c x, ?_⟩
  · simp only [normalize_data, inverse_transform, List.map_map]
    have hrow : ∀ r ∈ m,
        inverseRow (fitScalers m) (transformRow (fitScalers m) r) = r := by
      intro r hr
      refine inverseRow_transformRow _ _ ?_
      rw [hrect r hr, length_fitScalers]
    calc m.map (inverseRow (fitScalers m) ∘ transformRow (fitScalers m))
        = m.map id := List.map_congr_left hrow
      _ = m := List.map_id m
  · intro c hc y
    have hd : c.data_max - c.data_min ≠ 0 := sub_ne_zero.mpr (ne_of_gt hc)
    unfold inverseVal minCol scaleCol data_range
    rw [if_neg hd]
    field_simp
    ring

/-- Witness for C4 at the concrete non-degenerate matrix
`[[0, 0], [1, 2]]`. -/
theorem normalize_data_roundtrip_witness :
    (∀ r ∈ ([[0, 0], [1, 2]] : List (List ℚ)),
      r.length = (([[0, 0], [1, 2]] : List (List ℚ)).headD []).length) ∧
    (∀ j < (([[0, 0], [1, 2]] : List (List ℚ)).headD []).length,
      listMin (colValues [[0, 0], [1, 2]] j) <
        listMax (colValues [[0, 0], [1, 2]] j)) ∧
    (inverse_transform (normalize_data [[0, 0], [1, 2]]).2
        (normalize_data [[0, 0], [1, 2]]).1 = [[0, 0], [1, 2]] ∧
      (∀ (c : FittedCol) (x : ℚ), inverseVal c (transformVal c x) = x) ∧
      (∀ c : FittedCol, c.data_min < c.data_max → ∀ y : ℚ,
        inverseVal c y =
          c.data_min + (y + 1) * (c.data_max - c.data_min) / 2)) :=
  ⟨by decide, by decide,
    normalize_data_roundtrip [[0, 0], [1, 2]] (by decide) (by decide)⟩

theorem cycleStep_iterate (start D : ℤ) (k : ℕ) :
    cycleStep^[k] (initWalk start D) = initWalk start (D + k) := by
  induction k with
  | zero => simp [initWalk]
  | succ k ih =>
    rw [Function.iterate_succ_apply', ih]
    unfold cycleStep initWalk
    congr 1 <;> push_cast <;> ring

/-- **C6.** A walk-forward run of `C` cycles starting with `end_date = D`
(and `next_day_datetime = D + 1`, as initialized on line 151) ends with
`end_date = D + C`; the start date is never changed; and each cycle
increases `end_date` by exactly one day. -/
theorem walk_forward_advances (start D : ℤ) (C : ℕ) :
    (cycleStep^[C] (initWalk start D)).end_date = D + C ∧
    (cycleStep^[C] (initWalk start D)).start_date = start ∧
    (∀ k : ℕ, (cycleStep^[k + 1] (initWalk start D)).end_date =
      (cycleStep^[k] (initWalk start D)).end_date + 1) := by
  refine ⟨by rw [cycleStep_iterate]; rfl, by rw [cycleStep_iterate]; rfl, ?_⟩
  intro k
  rw [cycleStep_iterate, cycleStep_iterate]
  show D + ((k : ℕ) + 1 : ℤ) = D + (k : ℤ) + 1
  ring

theorem grid_fold_run {β : Type} (C : ℕ) (ps : List β) (start D : ℤ)
    (n : ℕ) :
    ps.foldl (fun s _ => run_walk_forward C s) ⟨initWalk start D, n⟩ =
      ⟨initWalk start (D + ps.length * C), n + ps.length⟩ := by
  induction ps generalizing D n with
  | nil => simp [initWalk]
  | cons p ps ih =>
    simp only [List.foldl_cons]
    have h1 : run_walk_forward C ⟨initWalk start D, n⟩ =
        (⟨initWalk start (D + C), n + 1⟩ : SearchState) := by
      unfold run_walk_forward
      rw [cycleStep_iterate]
    rw [h1, ih]
    have e1 : D + (C : ℤ) + (ps.length : ℤ) * (C : ℤ)
        = D + ((p :: ps).length : ℤ) * (C : ℤ) := by
      simp only [List.length_cons]
      push_cast
      ring
    have e2 : n + 1 + ps.length = n + (p :: ps).length := by
      simp only [List.length_cons]
      omega
    rw [e1, e2]

/-- **C9.** The walk-forward date state is one shared record threaded
through the whole grid search and never reset between combinations: after
the first `k` combinations (each of `C` cycles) the end date is exactly `D
+ k*C`, so each successive combination begins its cycles at the end date
left by the previous one, and after the full search over the `G`
enumerated combinations `end_date = D + G*C`. -/
theorem grid_search_date_state (g : List (String × List ℚ)) (C : ℕ)
    (start D : ℤ) :
    (grid_search g C ⟨initWalk start D, 0⟩).walk.end_date =
      D + (parameter_grid g).length * C ∧
    (∀ k : ℕ,
      (((parameter_grid g).take k).foldl (fun s _ => run_walk_forward C s)
          ⟨initWalk start D, 0⟩).walk.end_date =
        D + (min k (parameter_grid g).length) * C) ∧
    (grid_search g C ⟨initWalk start D, 0⟩).walk.start_date = start := by
  refine ⟨?_, ?_, ?_⟩
  · unfold grid_search
    rw [grid_fold_run]
    rfl
  · intro k
    rw [grid_fold_run]
    simp [initWalk]
  · unfold grid_search
    rw [grid_fold_run]
    rfl

theorem offer_branch1 {α π : Type} [Inhabited α] (s : TrackerState α π)
    (a : ℕ) (preds : List ℚ) (l : ℚ) (hp : π)
    (hc : bestPredCond s preds = true) :
    offer s a preds l hp =
      { s with best_model := some a, best_predictions := some preds,
               best_loss := some l, best_params := some hp } := by
  simp [offer, hc, lossLtBest]

theorem offer_branch2_only {α π : Type} [Inhabited α] (s : TrackerState α π)
    (a : ℕ) (preds : List ℚ) (l : ℚ) (hp : π)
    (hc : bestPredCond s preds = false)
    (hl : lossLtBest l s.best_loss = true) :
    offer s a preds l hp =
      { s with best_loss := some l, best_params := some hp,
               heap := s.heap ++ [s.heap.getD a default],
               best_model := some s.heap.length } := by
  simp [offer, hc, hl]

theorem offer_neither {α π : Type} [Inhabited α] (s : TrackerState α π)
    (a : ℕ) (preds : List ℚ) (l : ℚ) (hp : π)
    (hc : bestPredCond s preds = false)
    (hl : lossLtBest l s.best_loss = false) :
    offer s a preds l hp = s := by
  simp [offer, hc, hl]

/-- **C1.** An offered candidate replaces the current best — its loss
becomes the best loss, its hyperparameters the best hyperparameters, and
the stored best model carries its parameters — if (a) no best exists yet
(`best_predictions is None`), or (b) its denormalized prediction vector is
component-wise strictly greater than the current best's, or (c),
independently, its loss is strictly lower than the current best's loss.
In particular (second conjunct), for two offered candidates with losses
0.5 then 0.2, the tracker retains the second candidate's loss,
hyperparameters and model as best, whatever the prediction vectors. -/
theorem offer_replacement_rule {α π : Type} [Inhabited α]
    (s : TrackerState α π) (a : ℕ) (preds : List ℚ) (l : ℚ) (hp : π)
    (h : s.best_predictions = none ∨
      (∃ q, s.best_predictions = some q ∧ npAllGt preds q = true) ∨
      lossLtBest l s.best_loss = true) :
    ((offer s a preds l hp).best_loss = some l ∧
      (offer s a preds l hp).best_params = some hp ∧
      bestModelParams (offer s a preds l hp) =
        some (s.heap.getD a default)) ∧
    (∀ (m1 m2 : α) (p1 p2 : List ℚ) (hp1 hp2 : π),
      (offer (offer (initTracker [m1, m2]) 0 p1 0.5 hp1) 1 p2 0.2
          hp2).best_loss = some 0.2 ∧
      (offer (offer (initTracker [m1, m2]) 0 p1 0.5 hp1) 1 p2 0.2
          hp2).best_params = some hp2 ∧
      bestModelParams
          (offer (offer (initTracker [m1, m2]) 0 p1 0.5 hp1) 1 p2 0.2 hp2) =
        some m2) := by
  constructor
  · cases hcond : bestPredCond s preds with
    | true =>
      rw [offer_branch1 s a preds l hp hcond]
      simp [bestModelParams]
    | false =>
      have hl : lossLtBest l s.best_loss = true := by
        rcases h with hnone | ⟨q, hq, hgt⟩ | hl
        · simp [bestPredCond, hnone] at hcond
        · simp [bestPredCond, hq, hgt] at hcond
        · exact hl
      rw [offer_branch2_only s a preds l hp hcond hl]
      simp [bestModelParams, getD_append_length]
  · intro m1 m2 p1 p2 hp1 hp2
    have h1 : offer (initTracker [m1, m2] : TrackerState α π) 0 p1 0.5 hp1 =
        ⟨[m1, m2], some 0, some p1, some 0.5, some hp1⟩ := by
      rw [offer_branch1 _ _ _ _ _ (by rfl)]
      rfl
    rw [h1]
    cases hgt : npAllGt p2 p1 with
    | true =>
      rw [offer_branch1 _ _ _ _ _ (by simpa [bestPredCond] using hgt)]
      simp [bestModelParams, List.getD]
    | false =>
      rw [offer_branch2_only _ _ _ _ _
        (by simpa [bestPredCond] using hgt)
        (by norm_num [lossLtBest])]
      simp [bestModelParams, List.getD]

/-- Witness for C1: a first offer against an empty tracker (rule (a)
applies), at concrete values. -/
theorem offer_replacement_rule_witness :
    ((initTracker [(3 : ℚ)] : TrackerState ℚ ℕ).best_predictions = none ∨
      (∃ q, (initTracker [(3 : ℚ)] : TrackerState ℚ ℕ).best_predictions =
          some q ∧ npAllGt [1] q = true) ∨
      lossLtBest 1 (initTracker [(3 : ℚ)] :
        TrackerState ℚ ℕ).best_loss = true) ∧
    (((offer (initTracker [(3 : ℚ)] : TrackerState ℚ ℕ) 0 [1] 1
          7).best_loss = some 1 ∧
      (offer (initTracker [(3 : ℚ)] : TrackerState ℚ ℕ) 0 [1] 1
          7).best_params = some 7 ∧
      bestModelParams (offer (initTracker [(3 : ℚ)] : TrackerState ℚ ℕ) 0
          [1] 1 7) = some (([(3 : ℚ)]).getD 0 default)) ∧
    (∀ (m1 m2 : ℚ) (p1 p2 : List ℚ) (hp1 hp2 : ℕ),
      (offer (offer (initTracker [m1, m2]) 0 p1 0.5 hp1) 1 p2 0.2
          hp2).best_loss = some 0.2 ∧
      (offer (offer (initTracker [m1, m2]) 0 p1 0.5 hp1) 1 p2 0.2
          hp2).best_params = some hp2 ∧
      bestModelParams
          (offer (offer (initTracker [m1, m2]) 0 p1 0.5 hp1) 1 p2 0.2 hp2) =
        some m2)) :=
  ⟨Or.inl rfl,
    offer_replacement_rule (initTracker [(3 : ℚ)]) 0 [1] 1 7 (Or.inl rfl)⟩

theorem getD_set_append_length {α : Type} (xs : List α) (a : ℕ) (v x d : α) :
    ((xs.set a v) ++ [x]).getD xs.length d = x := by
  have h := getD_append_length (xs.set a v) x d
  rwa [List.length_set] at h

/-- **C7 counterexample.** The claim says every replacement stores a deep,
independent copy of the live training model.  But the no-best-yet /
greater-predictions branch (lines 224-229) stores the live model by
reference (`best_model = model`, no copy): offering a first candidate whose
model parameters are 5 and then mutating the live model in place (5 ↦ 6)
makes the stored best candidate's parameters read 6 — the replacement-time
value 5 is not preserved. -/
theorem best_model_alias_counterexample :
    bestModelParams
        (offer (initTracker [(5 : ℚ)] : TrackerState ℚ ℕ) 0 [1] 1 7) =
      some 5 ∧
    bestModelParams
        (mutateModel
          (offer (initTracker [(5 : ℚ)] : TrackerState ℚ ℕ) 0 [1] 1 7) 0
          (fun x => x + 1)) = some 6 ∧
    (6 : ℚ) ≠ 5 := by
  refine ⟨?_, ?_, by norm_num⟩
  · rw [offer_branch1 _ _ _ _ _ (by rfl)]
    rfl
  · rw [offer_branch1 _ _ _ _ _ (by rfl)]
    simp [mutateModel, bestModelParams, initTracker]
    norm_num

/-- **C7 amended.** Only a replacement triggered by the lower-loss rule
(lines 236-239) stores a deep, independent copy of the live training
model, so subsequent in-place mutation of the live model leaves that
stored copy unchanged; a replacement triggered by the no-best-yet or
greater-predictions rule (lines 224-229) stores a reference to the live
model itself, so subsequent mutation of the live model is visible through
the stored best candidate. -/
theorem offer_copy_semantics {α π : Type} [Inhabited α] :
    (∀ (s : TrackerState α π) (a : ℕ) (preds : List ℚ) (l : ℚ) (hp : π)
        (f : α → α),
      bestPredCond s preds = false → lossLtBest l s.best_loss = true →
      a < s.heap.length →
      bestModelParams (mutateModel (offer s a preds l hp) a f) =
        some (s.heap.getD a default)) ∧
    (∀ (s : TrackerState α π) (a : ℕ) (preds : List ℚ) (l : ℚ) (hp : π)
        (f : α → α),
      bestPredCond s preds = true → a < s.heap.length →
      (offer s a preds l hp).best_model = some a ∧
      bestModelParams (mutateModel (offer s a preds l hp) a f) =
        some (f (s.heap.getD a default))) := by
  constructor
  · intro s a preds l hp f hc hl ha
    rw [offer_branch2_only s a preds l hp hc hl]
    unfold mutateModel bestModelParams
    simp only [Option.map_some']
    rw [List.set_append_left _ _ ha]
    rw [getD_set_append_length]
  · intro s a preds l hp f hc ha
    rw [offer_branch1 s a preds l hp hc]
    refine ⟨rfl, ?_⟩
    unfold mutateModel bestModelParams
    simp only [Option.map_some']
    exact congrArg some (getD_set_self _ _ _ _ ha)

/-- Witness for the amended C7: a loss-rule replacement whose stored copy
survives mutation of the live model, and a first-offer replacement whose
stored reference tracks the mutation. -/
theorem offer_copy_semantics_witness :
    (bestPredCond (⟨[3, 4], some 1, some [9], some 1, some 5⟩ :
        TrackerState ℚ ℕ) [1] = false ∧
      lossLtBest (1/2) (⟨[3, 4], some 1, some [9], some 1, some 5⟩ :
        TrackerState ℚ ℕ).best_loss = true ∧
      0 < (⟨[3, 4], some 1, some [9], some 1, some 5⟩ :
        TrackerState ℚ ℕ).heap.length ∧
      bestModelParams (mutateModel (offer (⟨[3, 4], some 1, some [9],
        some 1, some 5⟩ : TrackerState ℚ ℕ) 0 [1] (1/2) 8) 0
        (fun x => x + 1)) = some ((⟨[3, 4], some 1, some [9], some 1,
        some 5⟩ : TrackerState ℚ ℕ).heap.getD 0 default)) ∧
    (bestPredCond (initTracker [(3 : ℚ)] : TrackerState ℚ ℕ) [1] = true ∧
      0 < (initTracker [(3 : ℚ)] : TrackerState ℚ ℕ).heap.length ∧
      ((offer (initTracker [(3 : ℚ)] : TrackerState ℚ ℕ) 0 [1] 1
          7).best_model = some 0 ∧
        bestModelParams (mutateModel (offer (initTracker [(3 : ℚ)] :
          TrackerState ℚ ℕ) 0 [1] 1 7) 0 (fun x => x + 1)) =
          some ((fun x => x + 1) ((initTracker [(3 : ℚ)] :
            TrackerState ℚ ℕ).heap.getD 0 default)))) :=
  ⟨⟨by decide, by norm_num [lossLtBest], by decide,
    (@offer_copy_semantics ℚ ℕ _).1 ⟨[3, 4], some 1, some [9], some 1,
      some 5⟩ 0 [1] (1/2) 8 (fun x => x + 1)
      (by decide) (by norm_num [lossLtBest]) (by decide)⟩,
   ⟨by decide, by decide,
    (@offer_copy_semantics ℚ ℕ _).2 (initTracker [(3 : ℚ)]) 0 [1] 1 7
      (fun x => x + 1) (by decide) (by decide)⟩⟩

/-- **C10.** A replacement triggered only by the lower-loss rule (lines
236-239) updates the stored best loss, best hyperparameters and best model
(as a deep copy), but leaves `best_predictions` unchanged; consequently
(second conjunct, at losses 0.5 then 0.2 with a second prediction vector
that is not component-wise greater) the final reported state carries the
first candidate's prediction vector next to the second candidate's loss,
hyperparameters and model. -/
theorem loss_only_replacement_stale_predictions {α π : Type} [Inhabited α] :
    (∀ (s : TrackerState α π) (a : ℕ) (preds : List ℚ) (l : ℚ) (hp : π),
      bestPredCond s preds = false → lossLtBest l s.best_loss = true →
      (offer s a preds l hp).best_predictions = s.best_predictions ∧
      (offer s a preds l hp).best_loss = some l ∧
      (offer s a preds l hp).best_params = some hp ∧
      bestModelParams (offer s a preds l hp) =
        some (s.heap.getD a default)) ∧
    (∀ (m1 m2 : α) (hp1 hp2 : π),
      (offer (offer (initTracker [m1, m2]) 0 [1, 1] 0.5 hp1) 1 [0, 2] 0.2
          hp2).best_predictions = some [1, 1] ∧
      (offer (offer (initTracker [m1, m2]) 0 [1, 1] 0.5 hp1) 1 [0, 2] 0.2
          hp2).best_loss = some 0.2 ∧
      (offer (offer (initTracker [m1, m2]) 0 [1, 1] 0.5 hp1) 1 [0, 2] 0.2
          hp2).best_params = some hp2 ∧
      bestModelParams (offer (offer (initTracker [m1, m2]) 0 [1, 1] 0.5 hp1)
          1 [0, 2] 0.2 hp2) = some m2) := by
  constructor
  · intro s a preds l hp hc hl
    rw [offer_branch2_only s a preds l hp hc hl]
    refine ⟨rfl, rfl, rfl, ?_⟩
    simp [bestModelParams, getD_append_length]
  · intro m1 m2 hp1 hp2
    have h1 : offer (initTracker [m1, m2] : TrackerState α π) 0 [1, 1] 0.5
        hp1 = ⟨[m1, m2], some 0, some [1, 1], some 0.5, some hp1⟩ := by
      rw [offer_branch1 _ _ _ _ _ (by rfl)]
      rfl
    rw [h1]
    rw [offer_branch2_only _ _ _ _ _ (by norm_num [bestPredCond, npAllGt])
      (by norm_num [lossLtBest])]
    refine ⟨rfl, rfl, rfl, ?_⟩
    simp [bestModelParams, List.getD]

/-- Witness for C10: a loss-only replacement at concrete values. -/
theorem loss_only_replacement_stale_predictions_witness :
    (bestPredCond (⟨[11, 12], some 0, some [9], some 1, some 5⟩ :
        TrackerState ℚ ℕ) [1] = false ∧
      lossLtBest (1/2) (some 1) = true ∧
      ((offer (⟨[11, 12], some 0, some [9], some 1, some 5⟩ :
          TrackerState ℚ ℕ) 1 [1] (1/2) 8).best_predictions = some [9] ∧
        (offer (⟨[11, 12], some 0, some [9], some 1, some 5⟩ :
          TrackerState ℚ ℕ) 1 [1] (1/2) 8).best_loss = some (1/2) ∧
        (offer (⟨[11, 12], some 0, some [9], some 1, some 5⟩ :
          TrackerState ℚ ℕ) 1 [1] (1/2) 8).best_params = some 8 ∧
        bestModelParams (offer (⟨[11, 12], some 0, some [9], some 1,
          some 5⟩ : TrackerState ℚ ℕ) 1 [1] (1/2) 8) =
          some ((⟨[11, 12], some 0, some [9], some 1, some 5⟩ :
            TrackerState ℚ ℕ).heap.getD 1 default))) :=
  ⟨by decide, by norm_num [lossLtBest],
    (@loss_only_replacement_stale_predictions ℚ ℕ _).1
      ⟨[11, 12], some 0, some [9], some 1, some 5⟩ 1 [1] (1/2) 8
      (by decide) (by norm_num [lossLtBest])⟩

theorem sum_map_const {α : Type} (l : List α) (c : ℕ) :
    (l.map (fun _ => c)).sum = l.length * c := by
  induction l with
  | nil => simp
  | cons x l ih =>
    simp only [List.map_cons, List.sum_cons, List.length_cons, ih]
    ring

theorem length_cartProd (ls : List (List ℚ)) :
    (cartProd ls).length = (ls.map List.length).prod := by
  induction ls with
  | nil => rfl
  | cons vs rest ih =>
    simp only [cartProd, List.length_flatMap, List.map_cons,
      List.prod_cons]
    have hcomp : (List.length ∘ fun v : ℚ =>
        List.map (fun t => v :: t) (cartProd rest)) =
        fun v : ℚ => ((cartProd rest).map (fun t => v :: t)).length := rfl
    rw [hcomp]
    simp only [List.length_map]
    rw [sum_map_const, ih]

theorem mem_cartProd (ls : List (List ℚ)) (t : List ℚ) :
    t ∈ cartProd ls ↔ List.Forall₂ (fun x l => x ∈ l) t ls := by
  induction ls generalizing t with
  | nil => simp [cartProd, List.forall₂_nil_right_iff]
  | cons vs rest ih =>
    simp only [cartProd, List.mem_flatMap, List.mem_map]
    constructor
    · rintro ⟨v, hv, t', ht', rfl⟩
      exact List.Forall₂.cons hv ((ih t').mp ht')
    · intro hf
      cases hf with
      | cons h1 h2 => exact ⟨_, h1, _, (ih _).mpr h2, rfl⟩

theorem nodup_cartProd (ls : List (List ℚ)) (h : ∀ l ∈ ls, l.Nodup) :
    (cartProd ls).Nodup := by
  induction ls with
  | nil => simp [cartProd]
  | cons vs rest ih =>
    rw [cartProd, List.nodup_flatMap]
    constructor
    · intro v _
      exact (ih (fun l hl => h l (List.mem_cons_of_mem _ hl))).map
        List.cons_injective
    · have hvs : vs.Nodup := h vs (List.mem_cons_self _ _)
      refine hvs.imp ?_
      intro a b hab x hxa hxb
      simp only [List.mem_map] at hxa hxb
      obtain ⟨t1, _, rfl⟩ := hxa
      obtain ⟨t2, _, heq⟩ := hxb
      injection heq with h1 h2
      exact hab h1.symm

theorem zip_right_inj {κ β : Type} (keys : List κ) :
    ∀ vs vs' : List β, vs.length = keys.length →
      vs'.length = keys.length → keys.zip vs = keys.zip vs' → vs = vs' := by
  induction keys with
  | nil =>
    intro vs vs' h1 h2 _
    rw [List.length_eq_zero.mp h1, List.length_eq_zero.mp h2]
  | cons k keys ih =>
    intro vs vs' h1 h2 heq
    cases vs with
    | nil => simp at h1
    | cons v vs =>
      cases vs' with
      | nil => simp at h2
      | cons v' vs' =>
        simp only [List.zip_cons_cons] at heq
        injection heq with hkv hrest
        injection hkv with hk hv
        simp only [List.length_cons] at h1 h2
        rw [hv, ih vs vs' (by omega) (by omega) hrest]

theorem nodup_parameter_grid (g : List (String × List ℚ))
    (hvals : ∀ kv ∈ g, kv.2.Nodup) : (parameter_grid g).Nodup := by
  unfold parameter_grid
  refine List.Nodup.map_on ?_ (nodup_cartProd _ ?_)
  · intro vs hvs vs' hvs' heq
    have l1 := ((mem_cartProd _ _).mp hvs).length_eq
    have l2 := ((mem_cartProd _ _).mp hvs').length_eq
    exact zip_right_inj ((sortItems g).map Prod.fst) vs vs'
      (by simpa using l1) (by simpa using l2) heq
  · intro l hl
    simp only [List.mem_map] at hl
    obtain ⟨kv, hkv, rfl⟩ := hl
    refine hvals kv ?_
    exact ((List.perm_insertionSort _ g).mem_iff).mp hkv

theorem length_parameter_grid (g : List (String × List ℚ)) :
    (parameter_grid g).length = (g.map (fun kv => kv.2.length)).prod := by
  unfold parameter_grid
  rw [List.length_map, length_cartProd, List.map_map]
  have hperm :
      List.Perm ((sortItems g).map (fun kv => kv.2.length))
        (g.map (fun kv => kv.2.length)) :=
    (List.perm_insertionSort _ g).map _
  have hfun : (List.length ∘ Prod.snd : String × List ℚ → ℕ) =
      fun kv => kv.2.length := rfl
  rw [hfun]
  exact hperm.prod_eq

theorem invocations_foldl {β : Type} (C : ℕ) (ps : List β)
    (s : SearchState) :
    (ps.foldl (fun s _ => run_walk_forward C s) s).invocations =
      s.invocations + ps.length := by
  induction ps generalizing s with
  | nil => simp
  | cons p ps ih =>
    rw [List.foldl_cons, ih]
    show s.invocations + 1 + ps.length = s.invocations + (p :: ps).length
    simp only [List.length_cons]
    omega

/-- **C8 counterexample.** The claim says grid combinations are enumerated
in an order lexicographic over the *declared* grid keys.  `ParameterGrid`
sorts the keys alphabetically first (`sorted(p.items())`), so for the grid
declared as `{hidden_dim: [32, 64], dropout_rate: [1, 3]}` the second
enumerated combination has `hidden_dim = 64` (only `hidden_dim`, the
alphabetically last key, has advanced), while declared-key lexicographic
order would put `hidden_dim = 32` there (advancing `dropout_rate` first). -/
theorem parameter_grid_order_counterexample :
    ((parameter_grid [("hidden_dim", [32, 64]),
        ("dropout_rate", [1, 3])]).getD 1 []).lookup "hidden_dim" =
      some 64 ∧
    ((parameter_grid_declared_order [("hidden_dim", [32, 64]),
        ("dropout_rate", [1, 3])]).getD 1 []).lookup "hidden_dim" =
      some 32 ∧
    (64 : ℚ) ≠ 32 := by
  refine ⟨by decide, by decide, by norm_num⟩

/-- **C8 amended.** The grid search enumerates every combination of the
Cartesian product of the grid's value sets exactly once — the enumeration
has length `k1*k2*…*kn`, has no duplicates when each value set is
duplicate-free, and contains every choice of one value per key — invokes
the walk-forward procedure exactly `k1*k2*…*kn` times, folding every
candidate into the single shared state; the order is deterministic (a pure
function of the grid), but it is lexicographic over the *alphabetically
sorted* key names, as `ParameterGrid` sorts `p.items()`, not over the
declared key order. -/
theorem parameter_grid_search_spec (g : List (String × List ℚ)) (C : ℕ)
    (s0 : SearchState) (hvals : ∀ kv ∈ g, kv.2.Nodup) :
    (parameter_grid g).length = (g.map (fun kv => kv.2.length)).prod ∧
    (grid_search g C s0).invocations =
      s0.invocations + (g.map (fun kv => kv.2.length)).prod ∧
    (parameter_grid g).Nodup ∧
    (∀ vs : List ℚ,
      List.Forall₂ (fun x l => x ∈ l) vs ((sortItems g).map Prod.snd) →
      ((sortItems g).map Prod.fst).zip vs ∈ parameter_grid g) ∧
    parameter_grid g = parameter_grid_declared_order (sortItems g) := by
  refine ⟨length_parameter_grid g, ?_, nodup_parameter_grid g hvals, ?_,
    rfl⟩
  · unfold grid_search
    rw [invocations_foldl, length_parameter_grid]
  · intro vs hf
    unfold parameter_grid
    exact List.mem_map.mpr ⟨vs, (mem_cartProd _ _).mpr hf, rfl⟩

/-- Witness for the amended C8 at a concrete two-key grid. -/
theorem parameter_grid_search_spec_witness :
    (∀ kv ∈ [(("hidden_dim" : String), [(32 : ℚ), 64]),
        ("dropout_rate", [1, 3])], kv.2.Nodup) ∧
    ((parameter_grid [("hidden_dim", [32, 64]),
        ("dropout_rate", [1, 3])]).length =
      ([(("hidden_dim" : String), [(32 : ℚ), 64]),
          ("dropout_rate", [1, 3])].map (fun kv => kv.2.length)).prod ∧
      (grid_search [("hidden_dim", [32, 64]), ("dropout_rate", [1, 3])] 1
          ⟨initWalk 0 0, 0⟩).invocations =
        (⟨initWalk 0 0, 0⟩ : SearchState).invocations +
          ([(("hidden_dim" : String), [(32 : ℚ), 64]),
              ("dropout_rate", [1, 3])].map (fun kv => kv.2.length)).prod ∧
      (parameter_grid [("hidden_dim", [32, 64]),
        ("dropout_rate", [1, 3])]).Nodup ∧
      (∀ vs : List ℚ,
        List.Forall₂ (fun x l => x ∈ l) vs
          ((sortItems [("hidden_dim", [32, 64]),
            ("dropout_rate", [1, 3])]).map Prod.snd) →
        ((sortItems [("hidden_dim", [32, 64]),
          ("dropout_rate", [1, 3])]).map Prod.fst).zip vs ∈
          parameter_grid [("hidden_dim", [32, 64]),
            ("dropout_rate", [1, 3])]) ∧
      parameter_grid [("hidden_dim", [32, 64]), ("dropout_rate", [1, 3])] =
        parameter_grid_declared_order
          (sortItems [("hidden_dim", [32, 64]),
            ("dropout_rate", [1, 3])])) :=
  ⟨by decide,
    parameter_grid_search_spec
      [("hidden_dim", [32, 64]), ("dropout_rate", [1, 3])] 1
      ⟨initWalk 0 0, 0⟩ (by decide)⟩
